import Mathlib

/-!
Verification of the earth-tour flight-path animation server.

The definitions below are shallow embeddings of the Python sources:
* `src/server/blender_scripts/render_flight_simple.py` (trajectory and
  orientation mathematics, frame scheduling, label visibility) — real
  arithmetic is modelled with `ℝ`,
* `src/server/app/services/geocoder.py` (retry/caching),
* `src/server/app/services/renderer.py` (duration computation),
* `src/server/app/main.py` (job state machine),
* `src/server/app/models.py` (request validation).
-/

namespace EarthTour

/-! ## Frame scheduling (render_flight_simple.py lines 285-288) -/

/-- `frames = fps * duration` (render_flight_simple.py line 63). -/
def totalFrames (fps duration : ℕ) : ℕ := fps * duration

/-- Frames per segment (render_flight_simple.py lines 286-288):
`frames // total_segments if total_segments > 0 else frames`, then bumped to
1 when it is 0 and there is at least one segment. `n` is the number of
waypoints. -/
def framesPerSegment (frames n : ℕ) : ℕ :=
  let totalSegments := n - 1
  let fps0 := if totalSegments > 0 then frames / totalSegments else frames
  if fps0 = 0 ∧ totalSegments > 0 then 1 else fps0

/-- First frame of segment `i` (0-indexed), as stated by the spec:
`i * framesPerSegment + 1`. -/
def segStart (fpseg i : ℕ) : ℕ := i * fpseg + 1

/-- Last frame of segment `i`, as stated by the spec: `(i+1) * framesPerSegment`,
with the final segment's range extended/truncated to end exactly at
`totalFrames`.  The `fpseg` parameter is the code's `frames_per_segment`. -/
def segEnd (fpseg n frames i : ℕ) : ℕ :=
  if i = n - 2 then frames else (i + 1) * fpseg

theorem framesPerSegment_eq_max (frames n : ℕ) (hn : 2 ≤ n) :
    framesPerSegment frames n = max 1 (frames / (n - 1)) := by
  unfold framesPerSegment
  have h1 : n - 1 > 0 := by omega
  simp only [h1, if_true, and_true]
  rcases Nat.eq_zero_or_pos (frames / (n - 1)) with h | h
  · simp [h]
  · rw [if_neg (by omega)]
    omega

theorem one_le_framesPerSegment (frames n : ℕ) (hn : 2 ≤ n) :
    1 ≤ framesPerSegment frames n := by
  rw [framesPerSegment_eq_max frames n hn]
  exact le_max_left 1 _

/-- C1: for `n ≥ 2` waypoints and `fps, duration ≥ 1`, the code's
`frames_per_segment` equals `floor(totalFrames / (n-1))` floored at 1, and the
spec's per-segment frame ranges `[i*framesPerSegment+1, (i+1)*framesPerSegment]`
— with the final segment's range ending exactly at `totalFrames` — cover every
frame in `[1, totalFrames]` exactly once. -/
theorem C1_frames_per_segment_partition (n fps dur : ℕ)
    (hn : 2 ≤ n) (hfps : 1 ≤ fps) (hdur : 1 ≤ dur) :
    framesPerSegment (totalFrames fps dur) n
        = max 1 (totalFrames fps dur / (n - 1)) ∧
    1 ≤ framesPerSegment (totalFrames fps dur) n ∧
    ∀ f, 1 ≤ f → f ≤ totalFrames fps dur →
      ∃! i, i < n - 1 ∧
        segStart (framesPerSegment (totalFrames fps dur) n) i ≤ f ∧
        f ≤ segEnd (framesPerSegment (totalFrames fps dur) n) n (totalFrames fps dur) i := by
  have hF : 1 ≤ totalFrames fps dur := Nat.one_le_iff_ne_zero.mpr (by
    unfold totalFrames
    exact Nat.mul_ne_zero (by omega) (by omega))
  set F := totalFrames fps dur with hFdef
  set p := framesPerSegment F n with hpdef
  have hmax : p = max 1 (F / (n - 1)) := framesPerSegment_eq_max F n hn
  have hp1 : 1 ≤ p := by rw [hmax]; exact le_max_left 1 _
  refine ⟨hmax, hp1, ?_⟩
  intro f hf1 hf2
  set S := n - 1 with hSdef
  have hS1 : 1 ≤ S := by omega
  -- the top segment index is n - 2 = S - 1
  have hSn : S - 1 = n - 2 := by omega
  by_cases hcase : (S - 1) * p < f
  · -- `f` lies in the final segment's (adjusted) range
    refine ⟨S - 1, ⟨by omega, ?_, ?_⟩, ?_⟩
    · unfold segStart; omega
    · unfold segEnd; rw [hSn, if_pos rfl]; exact hf2
    · rintro j ⟨hjS, hjstart, hjend⟩
      by_contra hne
      have hjne : j ≠ n - 2 := by omega
      have hjle : j + 1 ≤ S - 1 := by omega
      unfold segEnd at hjend
      rw [if_neg hjne] at hjend
      have : (j + 1) * p ≤ (S - 1) * p := Nat.mul_le_mul_right p hjle
      omega
  · -- `f` lies in a non-final segment; its index is `(f - 1) / p`
    push_neg at hcase
    have hS2 : 2 ≤ S := by
      by_contra h
      have : S = 1 := by omega
      rw [this] at hcase
      simp at hcase
      omega
    have hp0 : 0 < p := hp1
    obtain ⟨q, r, hqr, hr⟩ : ∃ q r, f - 1 = p * q + r ∧ r < p :=
      ⟨(f - 1) / p, (f - 1) % p, (Nat.div_add_mod (f - 1) p).symm, Nat.mod_lt _ hp0⟩
    have hqS : q < S - 1 := by
      have hcomm : (S - 1) * p = p * (S - 1) := Nat.mul_comm _ _
      have h2 : p * q < p * (S - 1) := by omega
      exact Nat.lt_of_mul_lt_mul_left h2
    have hqne : q ≠ n - 2 := by omega
    have hmul : p * (q + 1) = p * q + p := by ring
    refine ⟨q, ⟨by omega, ?_, ?_⟩, ?_⟩
    · unfold segStart
      have : q * p = p * q := by ring
      omega
    · unfold segEnd
      rw [if_neg hqne]
      have : (q + 1) * p = p * q + p := by ring
      omega
    · rintro j ⟨hjS, hjstart, hjend⟩
      unfold segStart at hjstart
      by_cases hjfin : j = n - 2
      · -- impossible: the final segment starts after `f`
        have : (S - 1) * p = j * p := by rw [hSn, hjfin]
        have hjp : j * p ≤ (S - 1) * p := by omega
        omega
      · unfold segEnd at hjend
        rw [if_neg hjfin] at hjend
        have e1 : j * p = p * j := by ring
        have e2 : (j + 1) * p = p * j + p := by ring
        have hlt1 : p * q < p * (j + 1) := by
          have : p * (j + 1) = p * j + p := by ring
          omega
        have hlt2 : p * j < p * (q + 1) := by omega
        have h1 := Nat.lt_of_mul_lt_mul_left hlt1
        have h2 := Nat.lt_of_mul_lt_mul_left hlt2
        omega

theorem C1_frames_per_segment_partition_witness :
    (2 ≤ 3 ∧ 1 ≤ 30 ∧ 1 ≤ 1) ∧
    (framesPerSegment (totalFrames 30 1) 3 = max 1 (totalFrames 30 1 / (3 - 1)) ∧
     1 ≤ framesPerSegment (totalFrames 30 1) 3 ∧
     ∀ f, 1 ≤ f → f ≤ totalFrames 30 1 →
       ∃! i, i < 3 - 1 ∧
         segStart (framesPerSegment (totalFrames 30 1) 3) i ≤ f ∧
         f ≤ segEnd (framesPerSegment (totalFrames 30 1) 3) 3 (totalFrames 30 1) i) :=
  ⟨by omega, C1_frames_per_segment_partition 3 30 1 (by omega) (by omega) (by omega)⟩

/-! ## Great-circle interpolation (render_flight_simple.py lines 199-273) -/

/-- A 3-vector as a triple of reals. -/
abbrev V3 := ℝ × ℝ × ℝ

/-- Degrees to radians (`math.radians`). -/
noncomputable def radiansOf (deg : ℝ) : ℝ := deg * Real.pi / 180

/-- Unit vector of a point given in radian latitude/longitude — the expression
`(cos lat * cos lon, cos lat * sin lon, sin lat)` that `great_circle_points`
computes for its start point (lines 228-230 and elsewhere). -/
noncomputable def sphereVec (latRad lonRad : ℝ) : V3 :=
  (Real.cos latRad * Real.cos lonRad, Real.cos latRad * Real.sin lonRad, Real.sin latRad)

/-- Squared Euclidean magnitude of a `V3`. -/
noncomputable def normSq3 (v : V3) : ℝ := v.1 ^ 2 + v.2.1 ^ 2 + v.2.2 ^ 2

theorem normSq3_sphereVec (latRad lonRad : ℝ) : normSq3 (sphereVec latRad lonRad) = 1 := by
  unfold normSq3 sphereVec
  simp only
  linear_combination (Real.cos latRad) ^ 2 * Real.sin_sq_add_cos_sq lonRad +
    Real.sin_sq_add_cos_sq latRad

/-- The clamped haversine angular separation `d_sigma`
(render_flight_simple.py lines 235-241), on radian inputs. -/
noncomputable def dSigma (lat1 lon1 lat2 lon2 : ℝ) : ℝ :=
  let a := Real.sin ((lat2 - lat1) / 2) ^ 2
  let b := Real.cos lat1 * Real.cos lat2 * Real.sin ((lon2 - lon1) / 2) ^ 2
  let sinSigmaVal := Real.sqrt (a + b)
  let clamped := max (-1) (min sinSigmaVal 1)
  2 * Real.arcsin clamped

/-- The slerp blend of the two endpoint vectors at parameter `t`
(render_flight_simple.py lines 257-262): coefficients
`A = sin((1-t)·Δ)/sin(Δ)`, `B = sin(t·Δ)/sin(Δ)`. -/
noncomputable def slerpBlend (lat1 lon1 lat2 lon2 ds t : ℝ) : V3 :=
  let A := Real.sin ((1 - t) * ds) / Real.sin ds
  let B := Real.sin (t * ds) / Real.sin ds
  (A * (Real.cos lat1 * Real.cos lon1) + B * (Real.cos lat2 * Real.cos lon2),
   A * (Real.cos lat1 * Real.sin lon1) + B * (Real.cos lat2 * Real.sin lon2),
   A * Real.sin lat1 + B * Real.sin lat2)

/-- One iteration of the sampling loop (render_flight_simple.py lines 246-271):
a near-zero `d_sigma` yields the start vector, otherwise the slerp blend at
parameter `t`; the result is divided by its magnitude, falling back to the
start vector when the magnitude is zero. -/
noncomputable def gcpSample (lat1 lon1 lat2 lon2 ds t : ℝ) : V3 :=
  let p : V3 :=
    if |ds| < 1e-10 then sphereVec lat1 lon1
    else slerpBlend lat1 lon1 lat2 lon2 ds t
  let mag := Real.sqrt (p.1 ^ 2 + p.2.1 ^ 2 + p.2.2 ^ 2)
  if mag = 0 then sphereVec lat1 lon1
  else (p.1 / mag, p.2.1 / mag, p.2.2 / mag)

/-- `great_circle_points` (render_flight_simple.py lines 209-273): degree
inputs are converted to radians; when both radian coordinates agree within
1e-10 the function returns `steps+1` copies of the start vector; otherwise it
returns `steps+1` slerp samples at `t = i/steps`. -/
noncomputable def great_circle_points (startLat startLon endLat endLon : ℝ)
    (steps : ℕ) : List V3 :=
  let lat1 := radiansOf startLat
  let lon1 := radiansOf startLon
  let lat2 := radiansOf endLat
  let lon2 := radiansOf endLon
  if |lat2 - lat1| < 1e-10 ∧ |lon2 - lon1| < 1e-10 then
    (List.range (steps + 1)).map fun _ => sphereVec lat1 lon1
  else
    let ds := dSigma lat1 lon1 lat2 lon2
    (List.range (steps + 1)).map fun i : ℕ => gcpSample lat1 lon1 lat2 lon2 ds ((i : ℝ) / (steps : ℝ))

theorem great_circle_points_length (startLat startLon endLat endLon : ℝ) (steps : ℕ) :
    (great_circle_points startLat startLon endLat endLon steps).length = steps + 1 := by
  unfold great_circle_points
  dsimp only
  split <;> simp

theorem normSq3_gcpSample (lat1 lon1 lat2 lon2 ds t : ℝ) :
    normSq3 (gcpSample lat1 lon1 lat2 lon2 ds t) = 1 := by
  unfold gcpSample
  set p : V3 :=
    if |ds| < 1e-10 then sphereVec lat1 lon1
    else slerpBlend lat1 lon1 lat2 lon2 ds t with hp
  simp only
  set mag := Real.sqrt (p.1 ^ 2 + p.2.1 ^ 2 + p.2.2 ^ 2) with hmag
  by_cases h : mag = 0
  · rw [if_pos h]
    exact normSq3_sphereVec lat1 lon1
  · rw [if_neg h]
    have hS : (0 : ℝ) ≤ p.1 ^ 2 + p.2.1 ^ 2 + p.2.2 ^ 2 := by positivity
    have hmag2 : mag ^ 2 = p.1 ^ 2 + p.2.1 ^ 2 + p.2.2 ^ 2 := Real.sq_sqrt hS
    unfold normSq3
    field_simp
    linarith [hmag2]

theorem normSq3_mem_great_circle_points (startLat startLon endLat endLon : ℝ)
    (steps : ℕ) (p : V3)
    (hp : p ∈ great_circle_points startLat startLon endLat endLon steps) :
    normSq3 p = 1 := by
  unfold great_circle_points at hp
  dsimp only at hp
  split at hp <;> rw [List.mem_map] at hp <;> obtain ⟨i, _, rfl⟩ := hp
  · exact normSq3_sphereVec _ _
  · exact normSq3_gcpSample _ _ _ _ _ _

/-- C4: every sample returned by `great_circle_points` — on the degenerate
branch as well as the slerp branch — has Euclidean magnitude 1 within 1e-6
tolerance (in this real-arithmetic model, exactly 1). -/
theorem C4_great_circle_samples_unit (startLat startLon endLat endLon : ℝ) (steps : ℕ) :
    ∀ p ∈ great_circle_points startLat startLon endLat endLon steps,
      |Real.sqrt (p.1 ^ 2 + p.2.1 ^ 2 + p.2.2 ^ 2) - 1| ≤ 1e-6 := by
  intro p hp
  have h := normSq3_mem_great_circle_points startLat startLon endLat endLon steps p hp
  unfold normSq3 at h
  rw [h, Real.sqrt_one]
  norm_num

theorem C4_great_circle_samples_unit_witness :
    sphereVec (radiansOf 0) (radiansOf 0) ∈ great_circle_points 0 0 0 0 1 ∧
    |Real.sqrt ((sphereVec (radiansOf 0) (radiansOf 0)).1 ^ 2 +
        (sphereVec (radiansOf 0) (radiansOf 0)).2.1 ^ 2 +
        (sphereVec (radiansOf 0) (radiansOf 0)).2.2 ^ 2) - 1| ≤ 1e-6 := by
  have hmem : sphereVec (radiansOf 0) (radiansOf 0) ∈ great_circle_points 0 0 0 0 1 := by
    unfold great_circle_points
    rw [if_pos (by norm_num)]
    exact List.mem_map.mpr ⟨0, by simp⟩
  exact ⟨hmem, C4_great_circle_samples_unit 0 0 0 0 1 _ hmem⟩

theorem gcpSample_eq (lat1 lon1 lat2 lon2 ds t : ℝ) (w : V3)
    (hw : (if |ds| < 1e-10 then sphereVec lat1 lon1
           else slerpBlend lat1 lon1 lat2 lon2 ds t) = w)
    (hnorm : normSq3 w = 1) :
    gcpSample lat1 lon1 lat2 lon2 ds t = w := by
  unfold gcpSample
  dsimp only
  rw [hw]
  unfold normSq3 at hnorm
  rw [hnorm, Real.sqrt_one, if_neg one_ne_zero]
  simp

theorem slerpBlend_zero (lat1 lon1 lat2 lon2 ds : ℝ) (hsin : Real.sin ds ≠ 0) :
    slerpBlend lat1 lon1 lat2 lon2 ds 0 = sphereVec lat1 lon1 := by
  unfold slerpBlend sphereVec
  dsimp only
  rw [show (1 - (0:ℝ)) * ds = ds by ring, show (0:ℝ) * ds = 0 by ring,
    div_self hsin, Real.sin_zero, zero_div]
  norm_num

theorem slerpBlend_one (lat1 lon1 lat2 lon2 ds : ℝ) (hsin : Real.sin ds ≠ 0) :
    slerpBlend lat1 lon1 lat2 lon2 ds 1 = sphereVec lat2 lon2 := by
  unfold slerpBlend sphereVec
  dsimp only
  rw [show (1 - (1:ℝ)) * ds = 0 by ring, show (1:ℝ) * ds = ds by ring,
    div_self hsin, Real.sin_zero, zero_div]
  norm_num

theorem gcpSample_small (lat1 lon1 lat2 lon2 ds t : ℝ) (h : |ds| < 1e-10) :
    gcpSample lat1 lon1 lat2 lon2 ds t = sphereVec lat1 lon1 :=
  gcpSample_eq lat1 lon1 lat2 lon2 ds t _ (if_pos h) (normSq3_sphereVec _ _)

theorem gcpSample_zero (lat1 lon1 lat2 lon2 ds : ℝ) (hds : ¬ |ds| < 1e-10)
    (hsin : Real.sin ds ≠ 0) :
    gcpSample lat1 lon1 lat2 lon2 ds 0 = sphereVec lat1 lon1 :=
  gcpSample_eq lat1 lon1 lat2 lon2 ds 0 _
    (by rw [if_neg hds]; exact slerpBlend_zero lat1 lon1 lat2 lon2 ds hsin)
    (normSq3_sphereVec _ _)

theorem gcpSample_one (lat1 lon1 lat2 lon2 ds : ℝ) (hds : ¬ |ds| < 1e-10)
    (hsin : Real.sin ds ≠ 0) :
    gcpSample lat1 lon1 lat2 lon2 ds 1 = sphereVec lat2 lon2 :=
  gcpSample_eq lat1 lon1 lat2 lon2 ds 1 _
    (by rw [if_neg hds]; exact slerpBlend_one lat1 lon1 lat2 lon2 ds hsin)
    (normSq3_sphereVec _ _)

/-- C3: `great_circle_points` returns exactly `steps+1` samples; when the
endpoints nearly coincide (the code's identical-point check, or an angular
separation `d_sigma` below the 1e-10 threshold) it returns `steps+1`
repetitions of the start unit vector; and otherwise — for distinct endpoints
whose separation is not degenerate (`sin d_sigma ≠ 0`, which only excludes the
exactly-antipodal reals) — the first sample is exactly the start unit vector
and the last sample exactly the end unit vector. -/
theorem C3_great_circle_endpoints (startLat startLon endLat endLon : ℝ) (steps : ℕ)
    (hsteps : 1 ≤ steps) :
    (great_circle_points startLat startLon endLat endLon steps).length = steps + 1 ∧
    (((|radiansOf endLat - radiansOf startLat| < 1e-10 ∧
        |radiansOf endLon - radiansOf startLon| < 1e-10) ∨
      |dSigma (radiansOf startLat) (radiansOf startLon)
          (radiansOf endLat) (radiansOf endLon)| < 1e-10) →
      great_circle_points startLat startLon endLat endLon steps =
        List.replicate (steps + 1) (sphereVec (radiansOf startLat) (radiansOf startLon))) ∧
    (¬(|radiansOf endLat - radiansOf startLat| < 1e-10 ∧
        |radiansOf endLon - radiansOf startLon| < 1e-10) →
      ¬|dSigma (radiansOf startLat) (radiansOf startLon)
          (radiansOf endLat) (radiansOf endLon)| < 1e-10 →
      Real.sin (dSigma (radiansOf startLat) (radiansOf startLon)
          (radiansOf endLat) (radiansOf endLon)) ≠ 0 →
      (great_circle_points startLat startLon endLat endLon steps).head? =
          some (sphereVec (radiansOf startLat) (radiansOf startLon)) ∧
      (great_circle_points startLat startLon endLat endLon steps).getLast? =
          some (sphereVec (radiansOf endLat) (radiansOf endLon))) := by
  refine ⟨great_circle_points_length _ _ _ _ _, ?_, ?_⟩
  · rintro (hco | hds)
    · unfold great_circle_points
      dsimp only
      rw [if_pos hco]
      rw [List.map_const', List.length_range]
    · unfold great_circle_points
      dsimp only
      by_cases hco : |radiansOf endLat - radiansOf startLat| < 1e-10 ∧
          |radiansOf endLon - radiansOf startLon| < 1e-10
      · rw [if_pos hco, List.map_const', List.length_range]
      · rw [if_neg hco]
        have : ∀ i : ℕ, gcpSample (radiansOf startLat) (radiansOf startLon)
            (radiansOf endLat) (radiansOf endLon)
            (dSigma (radiansOf startLat) (radiansOf startLon)
              (radiansOf endLat) (radiansOf endLon)) ((i : ℝ) / (steps : ℝ)) =
            sphereVec (radiansOf startLat) (radiansOf startLon) :=
          fun i => gcpSample_small _ _ _ _ _ _ hds
        calc (List.range (steps + 1)).map
              (fun i : ℕ => gcpSample (radiansOf startLat) (radiansOf startLon)
                (radiansOf endLat) (radiansOf endLon)
                (dSigma (radiansOf startLat) (radiansOf startLon)
                  (radiansOf endLat) (radiansOf endLon)) ((i : ℝ) / (steps : ℝ)))
            = (List.range (steps + 1)).map
                (fun _ : ℕ => sphereVec (radiansOf startLat) (radiansOf startLon)) := by
              exact List.map_congr_left fun i _ => this i
          _ = List.replicate (steps + 1)
                (sphereVec (radiansOf startLat) (radiansOf startLon)) := by
              rw [List.map_const', List.length_range]
  · intro hco hds hsin
    have hne : (steps : ℝ) ≠ 0 := Nat.cast_ne_zero.mpr (by omega)
    constructor
    · unfold great_circle_points
      dsimp only
      rw [if_neg hco]
      rw [List.head?_map]
      rw [show (List.range (steps + 1)).head? = some 0 by
        rw [List.range_succ_eq_map]; rfl]
      simp only [Option.map_some']
      congr 1
      rw [show ((0 : ℕ) : ℝ) / (steps : ℝ) = 0 by norm_num]
      exact gcpSample_zero _ _ _ _ _ hds hsin
    · unfold great_circle_points
      dsimp only
      rw [if_neg hco]
      rw [List.range_succ, List.map_append, List.map_singleton, List.getLast?_concat]
      congr 1
      rw [show ((steps : ℕ) : ℝ) / (steps : ℝ) = 1 from div_self hne]
      exact gcpSample_one _ _ _ _ _ hds hsin

theorem radiansOf_zero : radiansOf 0 = 0 := by unfold radiansOf; ring

theorem radiansOf_sixty : radiansOf 60 = Real.pi / 3 := by unfold radiansOf; ring

theorem dSigma_demo :
    dSigma (radiansOf 0) (radiansOf 0) (radiansOf 0) (radiansOf 60) = Real.pi / 3 := by
  rw [radiansOf_zero, radiansOf_sixty]
  unfold dSigma
  dsimp only
  rw [show ((0:ℝ) - 0) / 2 = 0 by ring, Real.sin_zero]
  rw [show (Real.pi / 3 - 0) / 2 = Real.pi / 6 by ring]
  rw [Real.cos_zero, Real.sin_pi_div_six]
  rw [show (0:ℝ) ^ 2 + 1 * 1 * (1 / 2 : ℝ) ^ 2 = (1 / 2 : ℝ) ^ 2 by norm_num]
  rw [Real.sqrt_sq (by norm_num)]
  rw [show min (1 / 2 : ℝ) 1 = 1 / 2 from min_eq_left (by norm_num)]
  rw [show max (-1 : ℝ) (1 / 2) = 1 / 2 from max_eq_right (by norm_num)]
  rw [show (1 / 2 : ℝ) = Real.sin (Real.pi / 6) from Real.sin_pi_div_six.symm]
  rw [Real.arcsin_sin (by linarith [Real.pi_pos]) (by linarith [Real.pi_pos])]
  ring

theorem C3_great_circle_endpoints_witness :
    (1 ≤ 1 ∧
     ¬(|radiansOf 0 - radiansOf 0| < 1e-10 ∧ |radiansOf 60 - radiansOf 0| < 1e-10) ∧
     ¬|dSigma (radiansOf 0) (radiansOf 0) (radiansOf 0) (radiansOf 60)| < 1e-10 ∧
     Real.sin (dSigma (radiansOf 0) (radiansOf 0) (radiansOf 0) (radiansOf 60)) ≠ 0) ∧
    (great_circle_points 0 0 0 60 1).length = 1 + 1 ∧
    (great_circle_points 0 0 0 60 1).head? = some (sphereVec (radiansOf 0) (radiansOf 0)) ∧
    (great_circle_points 0 0 0 60 1).getLast? = some (sphereVec (radiansOf 0) (radiansOf 60)) ∧
    great_circle_points 0 0 0 0 1 =
      List.replicate (1 + 1) (sphereVec (radiansOf 0) (radiansOf 0)) := by
  have hd : dSigma (radiansOf 0) (radiansOf 0) (radiansOf 0) (radiansOf 60) = Real.pi / 3 :=
    dSigma_demo
  have hpi := Real.pi_gt_three
  have hco : ¬(|radiansOf 0 - radiansOf 0| < 1e-10 ∧
      |radiansOf 60 - radiansOf 0| < 1e-10) := by
    rintro ⟨-, h2⟩
    rw [radiansOf_sixty, radiansOf_zero, sub_zero,
      abs_of_nonneg (by positivity)] at h2
    have : (1e-10 : ℝ) < 1 := by norm_num
    linarith
  have hds : ¬|dSigma (radiansOf 0) (radiansOf 0) (radiansOf 0) (radiansOf 60)| < 1e-10 := by
    rw [hd, abs_of_nonneg (by positivity)]
    intro h
    have : (1e-10 : ℝ) < 1 := by norm_num
    linarith
  have hsin : Real.sin (dSigma (radiansOf 0) (radiansOf 0) (radiansOf 0) (radiansOf 60)) ≠ 0 := by
    rw [hd, Real.sin_pi_div_three]
    positivity
  obtain ⟨hlen, -, hdist⟩ := C3_great_circle_endpoints 0 0 0 60 1 (le_refl 1)
  obtain ⟨hh, hl⟩ := hdist hco hds hsin
  obtain ⟨-, hrep0, -⟩ := C3_great_circle_endpoints 0 0 0 0 1 (le_refl 1)
  refine ⟨⟨le_refl 1, hco, hds, hsin⟩, hlen, hh, hl, ?_⟩
  refine hrep0 (Or.inl ⟨?_, ?_⟩) <;>
    rw [radiansOf_zero, sub_zero, abs_zero] <;> norm_num

/-! ## Animation plan (renderer.py lines 126-131, render_flight_simple.py
lines 285-347 and 438-475) -/

/-- Duration used by `BlenderRenderer.render_animation` (renderer.py lines
126-131): the request's explicit duration when present, otherwise
`5 + 3·(n−2)` seconds for `n` locations. -/
def renderDuration (numLocations : ℕ) (duration : Option ℕ) : ℕ :=
  match duration with
  | some d => d
  | none => 5 + (numLocations - 2) * 3

/-- Aircraft position keyframes produced by the segment animation loop
(render_flight_simple.py lines 326-347): for each segment `i`,
`great_circle_points` is sampled with `steps = max(0, frames_per_segment - 1)`
and keyed at frames `i*frames_per_segment + j + 1`, skipping any frame beyond
the scene end. -/
noncomputable def planPositions (waypoints : List (ℝ × ℝ)) (fps duration : ℕ) :
    List (ℕ × V3) :=
  let frames := totalFrames fps duration
  let fpseg := framesPerSegment frames waypoints.length
  (List.range (waypoints.length - 1)).flatMap fun i =>
    let s := waypoints.getD i (0, 0)
    let e := waypoints.getD (i + 1) (0, 0)
    let pathPoints := great_circle_points s.1 s.2 e.1 e.2 (fpseg - 1)
    (pathPoints.enum.map fun je => (i * fpseg + je.1 + 1, je.2)).filter
      fun fp => fp.1 ≤ frames

/-- Frame at which label `i` appears (render_flight_simple.py line 441):
`i * frames_per_segment + 1`. -/
def labelAppearFrame (fpseg i : ℕ) : ℕ := i * fpseg + 1

/-- Last frame through which label `i` stays visible (render_flight_simple.py
lines 457-475): a non-final label is hidden one frame after its segment ends,
unless its segment reaches the last frame, in which case — like the final
label — it stays visible through `frames`. -/
def labelVisibleThrough (fpseg n frames i : ℕ) : ℕ :=
  if i < n - 1 then
    if (i + 1) * fpseg < frames then (i + 1) * fpseg else frames
  else frames

theorem enumFrom_map_filter_le {α : Type _} (l : List α) (n bound : ℕ)
    (h : n + l.length ≤ bound) :
    ((l.enumFrom n).map fun je => (je.1 + 1, je.2)).filter (fun fp => fp.1 ≤ bound) =
      (l.enumFrom n).map fun je => (je.1 + 1, je.2) := by
  induction l generalizing n with
  | nil => simp
  | cons a t ih =>
      simp only [List.enumFrom_cons, List.map_cons, List.filter_cons]
      rw [if_pos (by simp only [decide_eq_true_eq]; simp at h ⊢; omega)]
      rw [ih (n + 1) (by simp at h ⊢; omega)]

theorem enumFrom_map_fst_add_one {α : Type _} (l : List α) (n : ℕ) :
    ((l.enumFrom n).map fun je => je.1 + 1) = List.range' (n + 1) l.length := by
  induction l generalizing n with
  | nil => simp
  | cons a t ih => simp [List.enumFrom_cons, List.range'_succ, ih]

/-- The two-waypoint plan of claim C2, reduced to a single segment's samples. -/
theorem planPositions_two (w0 w1 : ℝ × ℝ) (fps duration : ℕ)
    (hpos : 1 ≤ framesPerSegment (totalFrames fps duration) 2)
    (hseg : framesPerSegment (totalFrames fps duration) 2 ≤ totalFrames fps duration) :
    planPositions [w0, w1] fps duration =
      (great_circle_points w0.1 w0.2 w1.1 w1.2
        (framesPerSegment (totalFrames fps duration) 2 - 1)).enum.map
          fun je => (je.1 + 1, je.2) := by
  unfold planPositions
  dsimp only
  rw [show ([w0, w1] : List (ℝ × ℝ)).length = 2 by rfl]
  rw [show (2 : ℕ) - 1 = 1 by rfl, show List.range 1 = [0] from rfl]
  rw [List.flatMap_cons, List.flatMap_nil, List.append_nil]
  simp only [List.getD_cons_zero, List.getD_cons_succ, zero_mul, zero_add]
  set fpseg := framesPerSegment (totalFrames fps duration) 2 with hfp
  set path := great_circle_points w0.1 w0.2 w1.1 w1.2 (fpseg - 1) with hpath
  have hlen : path.length = fpseg - 1 + 1 := great_circle_points_length _ _ _ _ _
  have hlen' : path.length = fpseg := by omega
  have := enumFrom_map_filter_le path 0 (totalFrames fps duration) (by omega)
  simpa [List.enum] using this

theorem renderDuration_two : renderDuration 2 none = 5 := by rfl

theorem plan150_length :
    (planPositions [((40.7 : ℝ), (-74.0 : ℝ)), ((51.5 : ℝ), (-0.12 : ℝ))] 30
      (renderDuration 2 none)).length = 150 := by
  rw [renderDuration_two]
  rw [planPositions_two _ _ 30 5 (by decide) (by decide)]
  rw [List.length_map, List.enum_length, great_circle_points_length]
  rfl

theorem plan150_frames :
    (planPositions [((40.7 : ℝ), (-74.0 : ℝ)), ((51.5 : ℝ), (-0.12 : ℝ))] 30
      (renderDuration 2 none)).map Prod.fst = List.range' 1 150 := by
  rw [renderDuration_two]
  rw [planPositions_two _ _ 30 5 (by decide) (by decide)]
  rw [List.map_map]
  have : (Prod.fst ∘ fun je : ℕ × V3 => (je.1 + 1, je.2)) = fun je : ℕ × V3 => je.1 + 1 := by
    funext je; rfl
  rw [this]
  rw [show (List.enum = fun l : List V3 => List.enumFrom 0 l) from rfl]
  rw [enumFrom_map_fst_add_one]
  rw [great_circle_points_length]
  rfl

/-- C2 counterexample: for waypoints `[(40.7,-74.0), (51.5,-0.12)]`, `fps = 30`
and no explicit duration, the plan contains 150 position samples, not the 151
(`steps = 150`) the claim states: the code samples each segment with
`steps = frames_per_segment - 1`. -/
theorem C2_plan_samples_counterexample :
    (planPositions [((40.7 : ℝ), (-74.0 : ℝ)), ((51.5 : ℝ), (-0.12 : ℝ))] 30
      (renderDuration 2 none)).length = 150 ∧ (150 : ℕ) ≠ 151 :=
  ⟨plan150_length, by decide⟩

/-- C2 (amended): for waypoints `[(40.7,-74.0), (51.5,-0.12)]` with `fps = 30`
and no explicit duration, the computed duration is 5 s, `totalFrames = 150`,
`framesPerSegment = 150` (one segment), the plan contains exactly 150 position
samples (`steps = 149`) spanning frames 1..150, label 0 is visible from
frame 1, and label 1 is visible through frame 150. -/
theorem C2_two_waypoint_plan :
    renderDuration 2 none = 5 ∧
    totalFrames 30 (renderDuration 2 none) = 150 ∧
    framesPerSegment (totalFrames 30 (renderDuration 2 none)) 2 = 150 ∧
    (planPositions [((40.7 : ℝ), (-74.0 : ℝ)), ((51.5 : ℝ), (-0.12 : ℝ))] 30
      (renderDuration 2 none)).length = 150 ∧
    (planPositions [((40.7 : ℝ), (-74.0 : ℝ)), ((51.5 : ℝ), (-0.12 : ℝ))] 30
      (renderDuration 2 none)).map Prod.fst = List.range' 1 150 ∧
    labelAppearFrame (framesPerSegment (totalFrames 30 (renderDuration 2 none)) 2) 0 = 1 ∧
    labelVisibleThrough (framesPerSegment (totalFrames 30 (renderDuration 2 none)) 2) 2 150 1
      = 150 :=
  ⟨rfl, rfl, rfl, plan150_length, plan150_frames, rfl, rfl⟩

/-! ## Plane orientation (render_flight_simple.py lines 369-435)

Vector helpers mirror `mathutils.Vector`: `normalized()` divides by the
Euclidean length and leaves the zero vector unchanged. -/

noncomputable def norm3 (v : V3) : ℝ := Real.sqrt (normSq3 v)

noncomputable def dot3 (u v : V3) : ℝ := u.1 * v.1 + u.2.1 * v.2.1 + u.2.2 * v.2.2

noncomputable def cross3 (u v : V3) : V3 :=
  (u.2.1 * v.2.2 - u.2.2 * v.2.1,
   u.2.2 * v.1 - u.1 * v.2.2,
   u.1 * v.2.1 - u.2.1 * v.1)

noncomputable def sub3 (u v : V3) : V3 := (u.1 - v.1, u.2.1 - v.2.1, u.2.2 - v.2.2)

noncomputable def neg3 (v : V3) : V3 := (-v.1, -v.2.1, -v.2.2)

noncomputable def smul3 (r : ℝ) (v : V3) : V3 := (r * v.1, r * v.2.1, r * v.2.2)

noncomputable def normalize3 (v : V3) : V3 :=
  if norm3 v = 0 then v
  else (v.1 / norm3 v, v.2.1 / norm3 v, v.2.2 / norm3 v)

theorem normSq3_nonneg (v : V3) : 0 ≤ normSq3 v := by unfold normSq3; positivity

theorem normSq3_eq_zero_iff (v : V3) : normSq3 v = 0 ↔ v = 0 := by
  unfold normSq3
  constructor
  · intro h
    have h1 : v.1 = 0 := by nlinarith [sq_nonneg v.1, sq_nonneg v.2.1, sq_nonneg v.2.2]
    have h2 : v.2.1 = 0 := by nlinarith [sq_nonneg v.1, sq_nonneg v.2.1, sq_nonneg v.2.2]
    have h3 : v.2.2 = 0 := by nlinarith [sq_nonneg v.1, sq_nonneg v.2.1, sq_nonneg v.2.2]
    exact Prod.ext h1 (Prod.ext h2 h3)
  · rintro rfl
    norm_num [Prod.fst, Prod.snd]

theorem norm3_eq_zero_iff (v : V3) : norm3 v = 0 ↔ normSq3 v = 0 := by
  unfold norm3
  rw [Real.sqrt_eq_zero (normSq3_nonneg v)]

theorem norm3_sq (v : V3) : norm3 v ^ 2 = normSq3 v := Real.sq_sqrt (normSq3_nonneg v)

theorem norm3_of_normSq_one {v : V3} (h : normSq3 v = 1) : norm3 v = 1 := by
  unfold norm3; rw [h, Real.sqrt_one]

theorem normSq3_normalize3 {v : V3} (h : norm3 v ≠ 0) :
    normSq3 (normalize3 v) = 1 := by
  unfold normalize3
  rw [if_neg h]
  unfold normSq3 at *
  have hsq : norm3 v ^ 2 = v.1 ^ 2 + v.2.1 ^ 2 + v.2.2 ^ 2 := norm3_sq v
  field_simp
  linarith [hsq]

theorem normalize3_id {v : V3} (h : normSq3 v = 1) : normalize3 v = v := by
  unfold normalize3
  rw [norm3_of_normSq_one h, if_neg one_ne_zero]
  simp

theorem normSq3_normalize3_cases (v : V3) :
    normSq3 (normalize3 v) = 0 ∨ normSq3 (normalize3 v) = 1 := by
  by_cases h : norm3 v = 0
  · left
    unfold normalize3
    rw [if_pos h]
    exact (norm3_eq_zero_iff v).mp h
  · right
    exact normSq3_normalize3 h

theorem dot3_normalize3_left {v w : V3} (h : dot3 v w = 0) :
    dot3 (normalize3 v) w = 0 := by
  unfold normalize3
  by_cases hn : norm3 v = 0
  · rw [if_pos hn]; exact h
  · rw [if_neg hn]
    unfold dot3 at *
    field_simp
    linarith [h]

theorem dot3_comm (u v : V3) : dot3 u v = dot3 v u := by unfold dot3; ring

theorem dot3_cross3_left (u v : V3) : dot3 (cross3 u v) u = 0 := by
  unfold dot3 cross3; dsimp only; ring

theorem dot3_cross3_right (u v : V3) : dot3 (cross3 u v) v = 0 := by
  unfold dot3 cross3; dsimp only; ring

theorem normSq3_cross3 (u v : V3) :
    normSq3 (cross3 u v) = normSq3 u * normSq3 v - dot3 u v ^ 2 := by
  unfold normSq3 cross3 dot3; dsimp only; ring

theorem cross3_triple (a b c : V3) :
    cross3 a (cross3 b c) = sub3 (smul3 (dot3 a c) b) (smul3 (dot3 a b) c) := by
  unfold cross3 sub3 smul3 dot3
  dsimp only
  refine Prod.ext (by ring) (Prod.ext (by ring) (by ring))

theorem normSq3_neg3 (v : V3) : normSq3 (neg3 v) = normSq3 v := by
  unfold normSq3 neg3; dsimp only; ring

/-- The orientation data produced for one sample: the final basis, plus the
`previous_direction` / `previous_right_vector` values the loop stores on the
plane object. -/
structure OrientFrame where
  right : V3
  up : V3
  forward : V3
  prevDir : V3
  prevRight : V3

/-- Direction of travel (render_flight_simple.py lines 374-381): the
normalized difference of the next and current sample, falling back to the
stored `previous_direction` (or `(1,0,0)`) when nearly zero. -/
noncomputable def chooseDirection (point next : V3) (prevDir : Option V3) : V3 :=
  let direction0 := sub3 next point
  if norm3 direction0 > 1e-4 then normalize3 direction0
  else
    match prevDir with
    | some d => d
    | none => ((1 : ℝ), (0 : ℝ), (0 : ℝ))

/-- Replacement direction in the near-parallel (pole-crossing) case
(render_flight_simple.py lines 387-397): rebuild `right` from the cached
previous right vector (or a reference axis), derive `forward = up × right`,
and flip its sign to agree with the raw direction. -/
noncomputable def poleAdjust (up dir1 : V3) (prevRight : Option V3) : V3 :=
  let right0 :=
    match prevRight with
    | some r => r
    | none =>
        let tempRef : V3 := if |up.2.2| < 0.9 then (0, 0, 1) else (0, 1, 0)
        normalize3 (cross3 up tempRef)
  let forward0 := normalize3 (cross3 up right0)
  if dot3 dir1 forward0 < 0 then neg3 forward0 else forward0

/-- Fallback reconstruction of `final_right` when `up × forward` degenerates
(render_flight_simple.py lines 408-414). -/
noncomputable def fallbackRight (fu fr0 : V3) : V3 :=
  if norm3 fr0 < 1e-4 then
    let c := if |fu.2.2| < 0.9 then normalize3 (cross3 fu (0, 0, 1))
             else normalize3 (cross3 fu (0, 1, 0))
    if norm3 c < 1e-4 then
      (if |fu.1| > 0.9 then ((1 : ℝ), (0 : ℝ), (0 : ℝ)) else (0, 1, 0))
    else c
  else fr0

/-- One orientation computation of the segment loop
(render_flight_simple.py lines 369-434). -/
noncomputable def orientStep (point next : V3) (prevDir prevRight : Option V3) :
    OrientFrame :=
  let direction1 := chooseDirection point next prevDir
  let up := neg3 (normalize3 point)
  let direction2 :=
    if |dot3 direction1 up| > 0.999 then poleAdjust up direction1 prevRight
    else direction1
  let right1 := normalize3 (cross3 up direction2)
  let trueForward := normalize3 (cross3 right1 up)
  let finalRight1 := fallbackRight up (cross3 up trueForward)
  let finalForward1 := normalize3 (cross3 finalRight1 up)
  if norm3 finalForward1 < 1e-4 then
    let finalForward2 := direction2
    let finalRight2 := normalize3 (cross3 up finalForward2)
    let finalRight3 :=
      if norm3 finalRight2 < 1e-4 then
        (if |up.1| > 0.9 then ((1 : ℝ), (0 : ℝ), (0 : ℝ)) else (0, 1, 0))
      else finalRight2
    let finalUp2 := normalize3 (cross3 finalForward2 finalRight3)
    ⟨finalRight3, finalUp2, finalForward2, direction1, right1⟩
  else ⟨finalRight1, up, finalForward1, direction1, right1⟩

theorem fallbackRight_spec (fu fr0 : V3) (hfu : normSq3 fu = 1)
    (h0 : dot3 fr0 fu = 0) (h01 : normSq3 fr0 = 0 ∨ normSq3 fr0 = 1) :
    normSq3 (fallbackRight fu fr0) = 1 ∧ dot3 (fallbackRight fu fr0) fu = 0 := by
  unfold fallbackRight
  dsimp only
  by_cases hb : norm3 fr0 < 1e-4
  · rw [if_pos hb]
    by_cases hz : |fu.2.2| < 0.9
    · rw [if_pos hz]
      have hcross : normSq3 (cross3 fu ((0:ℝ), (0:ℝ), (1:ℝ))) = 1 - fu.2.2 ^ 2 := by
        rw [normSq3_cross3, hfu]
        unfold normSq3 dot3
        norm_num
      have habs := abs_lt.mp hz
      have hpos : 0 < normSq3 (cross3 fu ((0:ℝ), (0:ℝ), (1:ℝ))) := by
        rw [hcross]; nlinarith [habs.1, habs.2]
      have hn0 : norm3 (cross3 fu ((0:ℝ), (0:ℝ), (1:ℝ))) ≠ 0 := by
        rw [Ne, norm3_eq_zero_iff]; exact ne_of_gt hpos
      have hcu : normSq3 (normalize3 (cross3 fu ((0:ℝ), (0:ℝ), (1:ℝ)))) = 1 :=
        normSq3_normalize3 hn0
      have hcd : dot3 (normalize3 (cross3 fu ((0:ℝ), (0:ℝ), (1:ℝ)))) fu = 0 :=
        dot3_normalize3_left (dot3_cross3_left fu _)
      rw [if_neg (by rw [norm3_of_normSq_one hcu]; norm_num)]
      exact ⟨hcu, hcd⟩
    · rw [if_neg hz]
      have hcross : normSq3 (cross3 fu ((0:ℝ), (1:ℝ), (0:ℝ))) = 1 - fu.2.1 ^ 2 := by
        rw [normSq3_cross3, hfu]
        unfold normSq3 dot3
        norm_num
      have h9 : (0.9 : ℝ) ≤ |fu.2.2| := not_lt.mp hz
      have h81 : (0.81 : ℝ) ≤ fu.2.2 ^ 2 := by
        nlinarith [sq_abs fu.2.2, abs_nonneg fu.2.2]
      have hfu' : fu.1 ^ 2 + fu.2.1 ^ 2 + fu.2.2 ^ 2 = 1 := hfu
      have hpos : 0 < normSq3 (cross3 fu ((0:ℝ), (1:ℝ), (0:ℝ))) := by
        rw [hcross]; nlinarith [sq_nonneg fu.1]
      have hn0 : norm3 (cross3 fu ((0:ℝ), (1:ℝ), (0:ℝ))) ≠ 0 := by
        rw [Ne, norm3_eq_zero_iff]; exact ne_of_gt hpos
      have hcu : normSq3 (normalize3 (cross3 fu ((0:ℝ), (1:ℝ), (0:ℝ)))) = 1 :=
        normSq3_normalize3 hn0
      have hcd : dot3 (normalize3 (cross3 fu ((0:ℝ), (1:ℝ), (0:ℝ)))) fu = 0 :=
        dot3_normalize3_left (dot3_cross3_left fu _)
      rw [if_neg (by rw [norm3_of_normSq_one hcu]; norm_num)]
      exact ⟨hcu, hcd⟩
  · rw [if_neg hb]
    rcases h01 with h | h
    · exfalso
      apply hb
      rw [norm3_eq_zero_iff fr0 |>.mpr h]
      norm_num
    · exact ⟨h, h0⟩

/-- Characterization of `orientStep` for a nonzero `point`: the second
fallback is never taken, `up` stays the radial up vector, `right` is unit and
perpendicular to `up`, and `forward = right × up`. -/
theorem orientStep_char (point next : V3) (prevDir prevRight : Option V3)
    (h : point ≠ 0) :
    (orientStep point next prevDir prevRight).up = neg3 (normalize3 point) ∧
    normSq3 (orientStep point next prevDir prevRight).up = 1 ∧
    normSq3 (orientStep point next prevDir prevRight).right = 1 ∧
    dot3 (orientStep point next prevDir prevRight).right
      (orientStep point next prevDir prevRight).up = 0 ∧
    (orientStep point next prevDir prevRight).forward =
      cross3 (orientStep point next prevDir prevRight).right
        (orientStep point next prevDir prevRight).up := by
  have hpn : norm3 point ≠ 0 := by
    rw [Ne, norm3_eq_zero_iff, normSq3_eq_zero_iff]; exact h
  have hupSq : normSq3 (neg3 (normalize3 point)) = 1 := by
    rw [normSq3_neg3]; exact normSq3_normalize3 hpn
  unfold orientStep
  dsimp only
  set fu := neg3 (normalize3 point) with hfu_def
  set d1 := chooseDirection point next prevDir with hd1_def
  set d2 := if |dot3 d1 fu| > 0.999 then poleAdjust fu d1 prevRight else d1 with hd2_def
  set r1 := normalize3 (cross3 fu d2) with hr1_def
  set tf := normalize3 (cross3 r1 fu) with htf_def
  set fr0 := cross3 fu tf with hfr0_def
  have h0 : dot3 fr0 fu = 0 := by rw [hfr0_def]; exact dot3_cross3_left fu tf
  have htfd : dot3 tf fu = 0 := by
    rw [htf_def]; exact dot3_normalize3_left (dot3_cross3_right r1 fu)
  have hfr0Sq : normSq3 fr0 = normSq3 tf := by
    rw [hfr0_def, normSq3_cross3, hupSq, dot3_comm fu tf, htfd]
    ring
  have h01 : normSq3 fr0 = 0 ∨ normSq3 fr0 = 1 := by
    rw [hfr0Sq, htf_def]
    exact normSq3_normalize3_cases _
  obtain ⟨hfr1Sq, hfr1d⟩ := fallbackRight_spec fu fr0 hupSq h0 h01
  set fr1 := fallbackRight fu fr0 with hfr1_def
  have hw2Sq : normSq3 (cross3 fr1 fu) = 1 := by
    rw [normSq3_cross3, hfr1Sq, hupSq, hfr1d]; ring
  have hff1 : normalize3 (cross3 fr1 fu) = cross3 fr1 fu := normalize3_id hw2Sq
  have hff1n : norm3 (normalize3 (cross3 fr1 fu)) = 1 := by
    rw [hff1]; exact norm3_of_normSq_one hw2Sq
  rw [if_neg (by rw [hff1n]; norm_num)]
  exact ⟨rfl, hupSq, hfr1Sq, hfr1d, hff1⟩

/-- C5: for any nonzero current sample position — in particular every unit
position produced by `great_circle_points` — the basis `orientStep` returns is
orthonormal on every code path, including the pole-crossing degenerate case:
distinct axes have dot product exactly 0 and every axis has norm exactly 1. -/
theorem C5_orientation_frames_orthonormal (point next : V3)
    (prevDir prevRight : Option V3) (h : point ≠ 0) :
    dot3 (orientStep point next prevDir prevRight).right
      (orientStep point next prevDir prevRight).up = 0 ∧
    dot3 (orientStep point next prevDir prevRight).right
      (orientStep point next prevDir prevRight).forward = 0 ∧
    dot3 (orientStep point next prevDir prevRight).up
      (orientStep point next prevDir prevRight).forward = 0 ∧
    norm3 (orientStep point next prevDir prevRight).right = 1 ∧
    norm3 (orientStep point next prevDir prevRight).up = 1 ∧
    norm3 (orientStep point next prevDir prevRight).forward = 1 := by
  obtain ⟨-, hupSq, hrSq, hrd, hfwd⟩ := orientStep_char point next prevDir prevRight h
  set F := orientStep point next prevDir prevRight
  have hfSq : normSq3 F.forward = 1 := by
    rw [hfwd, normSq3_cross3, hrSq, hupSq, hrd]; ring
  refine ⟨hrd, ?_, ?_, norm3_of_normSq_one hrSq, norm3_of_normSq_one hupSq,
    norm3_of_normSq_one hfSq⟩
  · rw [hfwd, dot3_comm]
    exact dot3_cross3_left F.right F.up
  · rw [hfwd, dot3_comm]
    exact dot3_cross3_right F.right F.up

theorem C5_orientation_frames_orthonormal_witness :
    (((0:ℝ), (0:ℝ), (1:ℝ)) : V3) ≠ 0 ∧
    (dot3 (orientStep ((0:ℝ), (0:ℝ), (1:ℝ)) ((0:ℝ), (0:ℝ), (-1:ℝ)) none none).right
      (orientStep ((0:ℝ), (0:ℝ), (1:ℝ)) ((0:ℝ), (0:ℝ), (-1:ℝ)) none none).up = 0 ∧
    dot3 (orientStep ((0:ℝ), (0:ℝ), (1:ℝ)) ((0:ℝ), (0:ℝ), (-1:ℝ)) none none).right
      (orientStep ((0:ℝ), (0:ℝ), (1:ℝ)) ((0:ℝ), (0:ℝ), (-1:ℝ)) none none).forward = 0 ∧
    dot3 (orientStep ((0:ℝ), (0:ℝ), (1:ℝ)) ((0:ℝ), (0:ℝ), (-1:ℝ)) none none).up
      (orientStep ((0:ℝ), (0:ℝ), (1:ℝ)) ((0:ℝ), (0:ℝ), (-1:ℝ)) none none).forward = 0 ∧
    norm3 (orientStep ((0:ℝ), (0:ℝ), (1:ℝ)) ((0:ℝ), (0:ℝ), (-1:ℝ)) none none).right = 1 ∧
    norm3 (orientStep ((0:ℝ), (0:ℝ), (1:ℝ)) ((0:ℝ), (0:ℝ), (-1:ℝ)) none none).up = 1 ∧
    norm3 (orientStep ((0:ℝ), (0:ℝ), (1:ℝ)) ((0:ℝ), (0:ℝ), (-1:ℝ)) none none).forward = 1) := by
  have hne : (((0:ℝ), (0:ℝ), (1:ℝ)) : V3) ≠ 0 := by
    simp [Prod.ext_iff]
  exact ⟨hne, C5_orientation_frames_orthonormal _ _ none none hne⟩

theorem dot3_self (v : V3) : dot3 v v = normSq3 v := by
  unfold dot3 normSq3; ring

theorem chooseDirection_demo :
    chooseDirection ((0:ℝ), (0:ℝ), (1:ℝ)) ((1:ℝ), (0:ℝ), (1:ℝ)) none =
      ((1:ℝ), (0:ℝ), (0:ℝ)) := by
  norm_num [chooseDirection, sub3, norm3, normSq3, normalize3, Real.sqrt_one]

theorem neg_normalize_demo :
    neg3 (normalize3 ((0:ℝ), (0:ℝ), (1:ℝ))) = ((0:ℝ), (0:ℝ), (-1:ℝ)) := by
  norm_num [neg3, norm3, normSq3, normalize3, Real.sqrt_one]

theorem orientStep_demo :
    orientStep ((0:ℝ), (0:ℝ), (1:ℝ)) ((1:ℝ), (0:ℝ), (1:ℝ)) none none =
      ⟨((0:ℝ), (-1:ℝ), (0:ℝ)), ((0:ℝ), (0:ℝ), (-1:ℝ)), ((1:ℝ), (0:ℝ), (0:ℝ)),
       ((1:ℝ), (0:ℝ), (0:ℝ)), ((0:ℝ), (-1:ℝ), (0:ℝ))⟩ := by
  norm_num [orientStep, chooseDirection, poleAdjust, fallbackRight, sub3, neg3,
    cross3, dot3, norm3, normSq3, normalize3, Real.sqrt_one]

/-- C6 counterexample: at `current = (0,0,1)`, `next = (1,0,1)` the direction
of travel is `(1,0,0)`, perpendicular to the radial up vector — squarely the
non-degenerate case — yet the produced `right` is `(0,-1,0)`, not the claimed
`forward × up = (0,1,0)`: render_flight_simple computes `up × forward`, the
negative of the claimed cross product, and never re-orthogonalizes `up`. -/
theorem C6_right_vector_counterexample :
    |dot3 (chooseDirection ((0:ℝ), (0:ℝ), (1:ℝ)) ((1:ℝ), (0:ℝ), (1:ℝ)) none)
        (neg3 (normalize3 ((0:ℝ), (0:ℝ), (1:ℝ))))| ≤ 0.999 ∧
    (orientStep ((0:ℝ), (0:ℝ), (1:ℝ)) ((1:ℝ), (0:ℝ), (1:ℝ)) none none).right ≠
      cross3
        (orientStep ((0:ℝ), (0:ℝ), (1:ℝ)) ((1:ℝ), (0:ℝ), (1:ℝ)) none none).forward
        (orientStep ((0:ℝ), (0:ℝ), (1:ℝ)) ((1:ℝ), (0:ℝ), (1:ℝ)) none none).up ∧
    (orientStep ((0:ℝ), (0:ℝ), (1:ℝ)) ((1:ℝ), (0:ℝ), (1:ℝ)) none none).right ≠
      cross3 (chooseDirection ((0:ℝ), (0:ℝ), (1:ℝ)) ((1:ℝ), (0:ℝ), (1:ℝ)) none)
        (neg3 (normalize3 ((0:ℝ), (0:ℝ), (1:ℝ)))) := by
  rw [orientStep_demo, chooseDirection_demo, neg_normalize_demo]
  norm_num [cross3, dot3, Prod.ext_iff]

/-- C6 (amended): for any nonzero current position, render_flight_simple's
orientation computation keeps `up` as the radial up vector (it is never
re-orthogonalized), re-orthogonalizes `forward` as `right × up`, and the
produced basis satisfies `right = up × forward` — the mirror image of the
claimed `right = forward × up` / `up = right × forward` convention, which is
the one implemented in the unused `render_flight.py` script instead. -/
theorem C6_right_vector_amended (point next : V3) (prevDir prevRight : Option V3)
    (h : point ≠ 0) :
    (orientStep point next prevDir prevRight).up = neg3 (normalize3 point) ∧
    (orientStep point next prevDir prevRight).forward =
      cross3 (orientStep point next prevDir prevRight).right
        (orientStep point next prevDir prevRight).up ∧
    (orientStep point next prevDir prevRight).right =
      cross3 (orientStep point next prevDir prevRight).up
        (orientStep point next prevDir prevRight).forward := by
  obtain ⟨hup, hupSq, _, hrd, hfwd⟩ := orientStep_char point next prevDir prevRight h
  set F := orientStep point next prevDir prevRight
  refine ⟨hup, hfwd, ?_⟩
  rw [hfwd, cross3_triple]
  rw [show dot3 F.up F.up = 1 by rw [dot3_self]; exact hupSq]
  rw [show dot3 F.up F.right = 0 by rw [dot3_comm]; exact hrd]
  unfold sub3 smul3
  exact (Prod.ext (by ring) (Prod.ext (by ring) (by ring))).symm

theorem C6_right_vector_amended_witness :
    (((0:ℝ), (0:ℝ), (1:ℝ)) : V3) ≠ 0 ∧
    ((orientStep ((0:ℝ), (0:ℝ), (1:ℝ)) ((1:ℝ), (0:ℝ), (1:ℝ)) none none).up =
        neg3 (normalize3 ((0:ℝ), (0:ℝ), (1:ℝ))) ∧
    (orientStep ((0:ℝ), (0:ℝ), (1:ℝ)) ((1:ℝ), (0:ℝ), (1:ℝ)) none none).forward =
      cross3 (orientStep ((0:ℝ), (0:ℝ), (1:ℝ)) ((1:ℝ), (0:ℝ), (1:ℝ)) none none).right
        (orientStep ((0:ℝ), (0:ℝ), (1:ℝ)) ((1:ℝ), (0:ℝ), (1:ℝ)) none none).up ∧
    (orientStep ((0:ℝ), (0:ℝ), (1:ℝ)) ((1:ℝ), (0:ℝ), (1:ℝ)) none none).right =
      cross3 (orientStep ((0:ℝ), (0:ℝ), (1:ℝ)) ((1:ℝ), (0:ℝ), (1:ℝ)) none none).up
        (orientStep ((0:ℝ), (0:ℝ), (1:ℝ)) ((1:ℝ), (0:ℝ), (1:ℝ)) none none).forward) := by
  have hne : (((0:ℝ), (0:ℝ), (1:ℝ)) : V3) ≠ 0 := by
    simp [Prod.ext_iff]
  exact ⟨hne, C6_right_vector_amended _ _ none none hne⟩

/-! ## Geocoding service (geocoder.py lines 23-64) -/

/-- Outcome of one call to the Nominatim collaborator: a coordinate, a
definitive empty result, a transient failure (`GeocoderTimedOut` /
`GeocoderUnavailable`), or an unexpected exception. -/
inductive GeoOutcome where
  | found (lat lon : ℝ)
  | noMatch
  | transient
  | unexpected

/-- Result of `GeocodingService.geocode`, one constructor per return site:
success (line 48), empty name (line 37), definitive no-match (line 51),
unexpected exception (line 61), retries exhausted (line 64).  The Python
function returns `None` at all four failure sites; the spec's error taxonomy
names them `EmptyNameError`, `NotFoundError` and `GeocodeTimeoutError`. -/
inductive GeoResult where
  | success (lat lon : ℝ)
  | emptyName
  | notFound
  | geoError
  | timeout

/-- Observable trace of one `geocode` call: its result, the number of
collaborator calls made, and the backoff sleeps performed (seconds, in
order). -/
structure GeoTrace where
  result : GeoResult
  calls : ℕ
  waits : List ℕ

/-- The retry loop of `geocode` (geocoder.py lines 39-64).  `svc k` is the
outcome of the `k`-th collaborator call (0-indexed); `k` equals the loop's
`retry_count` since only a transient failure continues the loop, and `fuel`
is the remaining iteration budget `max_retries - retry_count`.  A transient
failure increments `retry_count` and sleeps `2 ** retry_count` seconds. -/
def geocodeAux (svc : ℕ → GeoOutcome) : ℕ → ℕ → List ℕ → GeoTrace
  | k, 0, waits => ⟨.timeout, k, waits⟩
  | k, fuel + 1, waits =>
      match svc k with
      | .found lat lon => ⟨.success lat lon, k + 1, waits⟩
      | .noMatch => ⟨.notFound, k + 1, waits⟩
      | .unexpected => ⟨.geoError, k + 1, waits⟩
      | .transient => geocodeAux svc (k + 1) fuel (waits ++ [2 ^ (k + 1)])

/-- `GeocodingService.geocode` (geocoder.py lines 24-64): an empty name fails
immediately with no collaborator call; otherwise the retry loop runs with a
budget of `maxRetries` attempts. -/
def geocode (svc : ℕ → GeoOutcome) (name : String) (maxRetries : ℕ) : GeoTrace :=
  if name = "" then ⟨.emptyName, 0, []⟩
  else geocodeAux svc 0 maxRetries []

theorem geocodeAux_calls_le (svc : ℕ → GeoOutcome) :
    ∀ fuel k w, (geocodeAux svc k fuel w).calls ≤ k + fuel := by
  intro fuel
  induction fuel with
  | zero => intro k w; simp [geocodeAux]
  | succ n ih =>
      intro k w
      cases hsvc : svc k with
      | found lat lon => simp [geocodeAux, hsvc]
      | noMatch => simp [geocodeAux, hsvc]
      | unexpected => simp [geocodeAux, hsvc]
      | transient =>
          simp only [geocodeAux, hsvc]
          have := ih (k + 1) (w ++ [2 ^ (k + 1)])
          omega

theorem geocodeAux_transient_of_lt (svc : ℕ → GeoOutcome) :
    ∀ fuel k w j, k ≤ j → j + 1 < (geocodeAux svc k fuel w).calls →
      svc j = .transient := by
  intro fuel
  induction fuel with
  | zero =>
      intro k w j hkj hlt
      simp [geocodeAux] at hlt
      exact (by omega : False).elim
  | succ n ih =>
      intro k w j hkj hlt
      cases hsvc : svc k with
      | found lat lon =>
          simp [geocodeAux, hsvc] at hlt
          exact (by omega : False).elim
      | noMatch =>
          simp [geocodeAux, hsvc] at hlt
          exact (by omega : False).elim
      | unexpected =>
          simp [geocodeAux, hsvc] at hlt
          exact (by omega : False).elim
      | transient =>
          simp only [geocodeAux, hsvc] at hlt
          by_cases hjk : j = k
          · exact hjk ▸ hsvc
          · exact ih (k + 1) (w ++ [2 ^ (k + 1)]) j (by omega) hlt

theorem geocodeAux_all_transient (svc : ℕ → GeoOutcome) :
    ∀ fuel k w, (∀ j, k ≤ j → j < k + fuel → svc j = .transient) →
      geocodeAux svc k fuel w =
        ⟨.timeout, k + fuel, w ++ (List.range' (k + 1) fuel).map fun a => 2 ^ a⟩ := by
  intro fuel
  induction fuel with
  | zero => intro k w _; simp [geocodeAux]
  | succ n ih =>
      intro k w h
      have hsvc : svc k = .transient := h k le_rfl (by omega)
      simp only [geocodeAux, hsvc]
      rw [ih (k + 1) (w ++ [2 ^ (k + 1)]) (fun j h1 h2 => h j (by omega) (by omega))]
      rw [List.range'_succ]
      simp only [List.map_cons, List.append_assoc, List.singleton_append]
      rw [show k + 1 + n = k + (n + 1) from by omega]

theorem geocodeAux_noMatch (svc : ℕ → GeoOutcome) :
    ∀ fuel k w j, k ≤ j → j < k + fuel →
      (∀ i, k ≤ i → i < j → svc i = .transient) → svc j = .noMatch →
      geocodeAux svc k fuel w =
        ⟨.notFound, j + 1, w ++ (List.range' (k + 1) (j - k)).map fun a => 2 ^ a⟩ := by
  intro fuel
  induction fuel with
  | zero => intro k w j h1 h2 _ _; exact (by omega : False).elim
  | succ n ih =>
      intro k w j h1 h2 hpre hj
      by_cases hjk : j = k
      · subst hjk
        simp [geocodeAux, hj]
      · have hsvc : svc k = .transient := hpre k le_rfl (by omega)
        simp only [geocodeAux, hsvc]
        rw [ih (k + 1) (w ++ [2 ^ (k + 1)]) j (by omega) (by omega)
          (fun i hi1 hi2 => hpre i (by omega) hi2) hj]
        rw [show j - k = (j - (k + 1)) + 1 from by omega, List.range'_succ]
        simp only [List.map_cons, List.append_assoc, List.singleton_append]

/-- C8: for any location name, `geocode` makes at most `maxRetries`
collaborator calls; every call that was followed by another was a transient
failure (retry only on transient failures); when every attempt is transient
it fails at the retries-exhausted return site after exactly `maxRetries`
attempts, sleeping `2^attempt` seconds after each attempt (attempt counted
from 1); and a definitive no-match at attempt `j+1` fails immediately at the
no-match return site with no further call and no further backoff. -/
theorem C8_geocode_retry_policy (svc : ℕ → GeoOutcome) (name : String) (m : ℕ)
    (hname : name ≠ "") :
    (geocode svc name m).calls ≤ m ∧
    (∀ j, j + 1 < (geocode svc name m).calls → svc j = .transient) ∧
    ((∀ k, k < m → svc k = .transient) →
      geocode svc name m = ⟨.timeout, m, (List.range' 1 m).map fun a => 2 ^ a⟩) ∧
    (∀ j, j < m → (∀ i, i < j → svc i = .transient) → svc j = .noMatch →
      geocode svc name m =
        ⟨.notFound, j + 1, (List.range' 1 j).map fun a => 2 ^ a⟩) := by
  unfold geocode
  rw [if_neg hname]
  refine ⟨?_, ?_, ?_, ?_⟩
  · have := geocodeAux_calls_le svc m 0 []
    simpa using this
  · intro j h
    exact geocodeAux_transient_of_lt svc m 0 [] j (Nat.zero_le j) h
  · intro h
    have := geocodeAux_all_transient svc m 0 [] (fun j _ hj => h j (by omega))
    simpa using this
  · intro j hj hpre hjm
    have := geocodeAux_noMatch svc m 0 [] j (Nat.zero_le j) (by omega)
      (fun i _ hi => hpre i hi) hjm
    simpa using this

theorem C8_geocode_retry_policy_witness :
    ("x" ≠ "" ∧ ∀ k, k < 3 → (fun _ : ℕ => GeoOutcome.transient) k = .transient) ∧
    (geocode (fun _ => .transient) "x" 3).calls ≤ 3 ∧
    geocode (fun _ => .transient) "x" 3 = ⟨.timeout, 3, [2, 4, 8]⟩ := by
  have h := C8_geocode_retry_policy (fun _ => .transient) "x" 3 (by decide)
  refine ⟨⟨by decide, fun k _ => rfl⟩, h.1, ?_⟩
  rw [h.2.2.1 (fun k _ => rfl)]
  rfl

/-! ## Geocode cache (geocoder.py line 23: `@lru_cache(maxsize=1000)`) -/

/-- LRU cache state, most recently used entry first, keyed by the memoized
call arguments `(location_name, max_retries)`. -/
abbrev GeoCache := List ((String × ℕ) × GeoResult)

def cacheLookup (st : GeoCache) (k : String × ℕ) : Option GeoResult :=
  (st.find? fun e => decide (e.1 = k)).map (·.2)

/-- Move the entry for `k` to the front - the LRU touch a cache hit performs. -/
def cacheTouch (st : GeoCache) (k : String × ℕ) : GeoCache :=
  match st.find? fun e => decide (e.1 = k) with
  | some e => e :: st.eraseP fun e => decide (e.1 = k)
  | none => st

/-- Store a freshly computed result, evicting the least recently used entry
beyond the 1000-entry capacity. -/
def cacheInsert (st : GeoCache) (k : String × ℕ) (v : GeoResult) : GeoCache :=
  ((k, v) :: st).take 1000

/-- `geocode` as seen through its `lru_cache` wrapper: a hit returns the
cached result of a previous completed call without calling the collaborator;
a miss runs the function body and caches whatever it returns — `None`
failure results included.  Returns (result, new cache state, number of
collaborator calls made). -/
def resolveCached (svc : ℕ → GeoOutcome) (st : GeoCache) (name : String)
    (maxRetries : ℕ) : GeoResult × GeoCache × ℕ :=
  match cacheLookup st (name, maxRetries) with
  | some v => (v, cacheTouch st (name, maxRetries), 0)
  | none =>
      let t := geocode svc name maxRetries
      (t.result, cacheInsert st (name, maxRetries) t.result, t.calls)

theorem cacheLookup_touch (st : GeoCache) (k : String × ℕ) (v : GeoResult)
    (h : cacheLookup st k = some v) :
    cacheLookup (cacheTouch st k) k = some v := by
  unfold cacheLookup cacheTouch at *
  cases hf : st.find? fun e => decide (e.1 = k) with
  | none => rw [hf] at h; simp at h
  | some e =>
      rw [hf] at h
      simp only [Option.map_some'] at h
      have he := List.find?_some hf
      simp [List.find?_cons, he, h]

theorem cacheLookup_insert (st : GeoCache) (k : String × ℕ) (v : GeoResult) :
    cacheLookup (cacheInsert st k v) k = some v := by
  unfold cacheLookup cacheInsert
  rw [List.take_succ_cons]
  simp [List.find?_cons]

/-- C9 (amended): the `lru_cache` stores the result of every completed
`geocode` call, success or failure alike; any later `resolve` of the same
name (and retry limit) returns that cached result with zero collaborator
calls, regardless of how the collaborator would now behave. -/
theorem C9_cache_repeat_resolve (svc svc' : ℕ → GeoOutcome) (st : GeoCache)
    (name : String) (m : ℕ) (r : GeoResult) (st' : GeoCache) (c : ℕ)
    (h : resolveCached svc st name m = (r, st', c)) :
    resolveCached svc' st' name m = (r, cacheTouch st' (name, m), 0) := by
  unfold resolveCached at h
  cases hl : cacheLookup st (name, m) with
  | some v =>
      rw [hl] at h
      simp only [Prod.mk.injEq] at h
      obtain ⟨hv, hst, -⟩ := h
      subst hv
      subst hst
      have hlk := cacheLookup_touch st (name, m) v hl
      unfold resolveCached
      rw [hlk]
  | none =>
      rw [hl] at h
      simp only [Prod.mk.injEq] at h
      obtain ⟨hv, hst, -⟩ := h
      subst hv
      subst hst
      have hlk := cacheLookup_insert st (name, m) (geocode svc name m).result
      unfold resolveCached
      rw [hlk]

theorem C9_cache_repeat_resolve_witness :
    resolveCached (fun _ => .found 1 2) [] "paris" 3 =
      (.success 1 2, [(("paris", 3), .success 1 2)], 1) ∧
    resolveCached (fun _ => .noMatch) [(("paris", 3), .success 1 2)] "paris" 3 =
      (.success 1 2, cacheTouch [(("paris", 3), .success 1 2)] ("paris", 3), 0) := by
  have h1 : resolveCached (fun _ => .found 1 2) [] "paris" 3 =
      (.success 1 2, [(("paris", 3), .success 1 2)], 1) := rfl
  exact ⟨h1, C9_cache_repeat_resolve _ _ _ _ _ _ _ _ h1⟩

/-- C9 counterexample: a failed resolve (definitive no-match) does mutate the
cache — the `None` result is stored — so a second resolve of the same name
makes zero collaborator calls instead of querying again. -/
theorem C9_failure_cached_counterexample :
    (resolveCached (fun _ => .noMatch) [] "Nowhereville" 3).1 = .notFound ∧
    (resolveCached (fun _ => .noMatch) [] "Nowhereville" 3).2.1 ≠ [] ∧
    (resolveCached (fun _ => .noMatch)
        (resolveCached (fun _ => .noMatch) [] "Nowhereville" 3).2.1
        "Nowhereville" 3).2.2 = 0 := by
  refine ⟨rfl, ?_, rfl⟩
  have : (resolveCached (fun _ => .noMatch) [] "Nowhereville" 3).2.1 =
      [(("Nowhereville", 3), .notFound)] := rfl
  rw [this]
  simp

/-! ## Job state machine (main.py lines 52-130, models.py lines 22-51) -/

inductive JobStatus where
  | queued
  | processing
  | completed
  | failed
  deriving DecidableEq

/-- A request location (models.py lines 22-25): optional name, optional
coordinates. -/
structure Location where
  name : Option String
  lat : Option ℝ
  lon : Option ℝ

/-- Python truthiness of `location.name` (main.py line 80): present and
non-empty. -/
def nameTruthy : Option String → Bool
  | none => false
  | some s => decide (s ≠ "")

/-- The final observable job record written by `process_animation_request`. -/
structure JobOutcome where
  status : JobStatus
  error : Option String
  videoPath : Option String

/-- Result of the sequential location-resolution loop: the processed
coordinate list, a handled failure (the loop sets `failed` and returns), or
an exception propagating to the outer handler. -/
inductive ResolveOutcome where
  | ok (coords : List (ℝ × ℝ))
  | failMsg (msg : String)
  | exn (msg : String)

/-- The location-processing loop of `process_animation_request`
(main.py lines 73-96): explicit coordinates are used as-is; otherwise a
truthy name is geocoded — a `None` result fails the job with a message naming
the location, and an exception propagates — and a location with neither name
nor coordinates fails the job. The first failure aborts the loop. -/
def resolveLocations (g : String → Except String (Option (ℝ × ℝ))) :
    List Location → ResolveOutcome
  | [] => .ok []
  | loc :: rest =>
      match loc.lat, loc.lon with
      | some la, some lo =>
          (match resolveLocations g rest with
           | .ok cs => .ok ((la, lo) :: cs)
           | r => r)
      | _, _ =>
          if nameTruthy loc.name then
            match g (loc.name.getD "") with
            | .error e => .exn e
            | .ok (some c) =>
                (match resolveLocations g rest with
                 | .ok cs => .ok (c :: cs)
                 | r => r)
            | .ok none => .failMsg ("Failed to geocode location: " ++ loc.name.getD "")
          else .failMsg "Location missing both name and coordinates"

/-- `process_animation_request` (main.py lines 52-130): resolve every
location, dispatch the render, and record the outcome.  The render
collaborator returns an output path (`None` signalling failure) or raises;
every exception is caught by the outer handler (lines 126-130) and recorded
as a failure message. -/
def processAnimationRequest (g : String → Except String (Option (ℝ × ℝ)))
    (render : List (ℝ × ℝ) → Except String (Option String))
    (locs : List Location) : JobOutcome :=
  match resolveLocations g locs with
  | .failMsg msg => ⟨.failed, some msg, none⟩
  | .exn e => ⟨.failed, some ("Error processing animation: " ++ e), none⟩
  | .ok coords =>
      match render coords with
      | .error e => ⟨.failed, some ("Error processing animation: " ++ e), none⟩
      | .ok (some path) => ⟨.completed, none, some ("/videos/" ++ path)⟩
      | .ok none => ⟨.failed, some "Failed to render animation", none⟩

/-- C7: every failure during asynchronous job execution — a geocode failure
for any location, a render failure, or an unexpected exception — leaves the
job `failed` with a captured error message; the job never ends in
`processing`; and a job whose single location draws a definitive geocoding
`None` ends `failed` with a message identifying that location, never
`completed`. -/
theorem C7_job_failure_handling (g : String → Except String (Option (ℝ × ℝ)))
    (render : List (ℝ × ℝ) → Except String (Option String)) (locs : List Location) :
    ((processAnimationRequest g render locs).status = .completed ∨
      ((processAnimationRequest g render locs).status = .failed ∧
       (processAnimationRequest g render locs).error ≠ none)) ∧
    (processAnimationRequest g render locs).status ≠ .processing ∧
    (∀ name : String, name ≠ "" → g name = .ok none →
      processAnimationRequest g render [⟨some name, none, none⟩] =
        ⟨.failed, some ("Failed to geocode location: " ++ name), none⟩) := by
  refine ⟨?_, ?_, ?_⟩
  · unfold processAnimationRequest
    rcases resolveLocations g locs with cs | msg | e
    · cases hr : render cs with
      | error e => simp [hr]
      | ok p => cases p with
        | none => simp [hr]
        | some path => simp [hr]
    · simp
    · simp
  · unfold processAnimationRequest
    rcases resolveLocations g locs with cs | msg | e
    · cases hr : render cs with
      | error e => simp [hr]
      | ok p => cases p with
        | none => simp [hr]
        | some path => simp [hr]
    · simp
    · simp
  · intro name hname hg
    unfold processAnimationRequest resolveLocations
    have ht : nameTruthy (some name) = true := by
      unfold nameTruthy
      simpa using hname
    simp [ht, hg]

theorem C7_job_failure_handling_witness :
    ("Atlantis" ≠ "" ∧
     (fun _ : String => (Except.ok none : Except String (Option (ℝ × ℝ)))) "Atlantis" =
       .ok none) ∧
    processAnimationRequest (fun _ => .ok none) (fun _ => .ok none)
        [⟨some "Atlantis", none, none⟩] =
      ⟨.failed, some ("Failed to geocode location: " ++ "Atlantis"), none⟩ := by
  have h := (C7_job_failure_handling (fun _ => .ok none) (fun _ => .ok none)
    [⟨some "Atlantis", none, none⟩]).2.2 "Atlantis" (by decide) rfl
  exact ⟨⟨by decide, rfl⟩, h⟩

/-! ## Request validation and submission (models.py lines 42-51,
main.py lines 132-182) -/

/-- The quality presets of models.py lines 6-10. -/
inductive VideoQuality where
  | hd720p
  | hd1080p
  | qhd1440p
  | uhd4k
  deriving DecidableEq

/-- `AnimationRequest` (models.py lines 42-45). -/
structure AnimationRequest where
  locations : List Location
  quality : VideoQuality
  duration : Option ℕ

/-- Pydantic validation of `AnimationRequest.locations` (models.py lines
43 and 47-51): both the `min_items=2` field constraint and the explicit
validator reject fewer than 2 locations before the endpoint runs. -/
def validateRequest (req : AnimationRequest) : Except String AnimationRequest :=
  if req.locations.length < 2 then .error "At least 2 locations are required"
  else .ok req

/-- `generate_animation` (main.py lines 132-182) on a parsed request:
re-checks the location count, records the job in `queued` state in the
registry, schedules the background task — returned here as data, the task's
argument list, since it is not executed before the response — and returns the
job id immediately. -/
def generateAnimation (jobs : List (String × JobStatus)) (newId : String)
    (req : AnimationRequest) :
    Except String (String × String) × List (String × JobStatus) ×
      List (List Location) :=
  if req.locations.length < 2 then
    (.error "At least 2 locations are required", jobs, [])
  else
    (.ok (newId, "queued"), jobs ++ [(newId, .queued)], [req.locations])

/-- Submission as the transport layer sees it: pydantic validation of the
request body, then the endpoint. -/
def submit (jobs : List (String × JobStatus)) (newId : String)
    (req : AnimationRequest) :
    Except String (String × String) × List (String × JobStatus) ×
      List (List Location) :=
  match validateRequest req with
  | .error e => (.error e, jobs, [])
  | .ok req' => generateAnimation jobs newId req'

/-- C10: a submission with fewer than 2 locations fails synchronously with a
validation error — no job id is returned, the job registry is unchanged, and
nothing is scheduled; a valid submission returns the job id immediately with
the job recorded in `queued` state and exactly its background task
scheduled. -/
theorem C10_submission_validation (jobs : List (String × JobStatus))
    (newId : String) (req : AnimationRequest) :
    (req.locations.length < 2 →
      (submit jobs newId req).1 = .error "At least 2 locations are required" ∧
      (∀ x, (submit jobs newId req).1 ≠ .ok x) ∧
      (submit jobs newId req).2.1 = jobs ∧
      (submit jobs newId req).2.2 = []) ∧
    (2 ≤ req.locations.length →
      (submit jobs newId req).1 = .ok (newId, "queued") ∧
      (submit jobs newId req).2.1 = jobs ++ [(newId, .queued)] ∧
      (newId, JobStatus.queued) ∈ (submit jobs newId req).2.1 ∧
      (submit jobs newId req).2.2 = [req.locations]) := by
  constructor
  · intro h
    unfold submit validateRequest
    rw [if_pos h]
    exact ⟨rfl, fun x => by simp, rfl, rfl⟩
  · intro h
    unfold submit validateRequest generateAnimation
    rw [if_neg (by omega)]
    simp only
    rw [if_neg (by omega)]
    exact ⟨rfl, rfl, by simp, rfl⟩

theorem C10_submission_validation_witness :
    (([⟨some "NYC", none, none⟩] : List Location).length < 2 ∧
     2 ≤ ([⟨some "NYC", none, none⟩, ⟨some "London", none, none⟩] :
        List Location).length) ∧
    (submit [] "job1" ⟨[⟨some "NYC", none, none⟩], .hd1080p, none⟩).1 =
        .error "At least 2 locations are required" ∧
    (submit [] "job1" ⟨[⟨some "NYC", none, none⟩], .hd1080p, none⟩).2.1 = [] ∧
    (submit [] "job1"
        ⟨[⟨some "NYC", none, none⟩, ⟨some "London", none, none⟩], .hd1080p, none⟩).1 =
      .ok ("job1", "queued") ∧
    (submit [] "job1"
        ⟨[⟨some "NYC", none, none⟩, ⟨some "London", none, none⟩], .hd1080p, none⟩).2.1 =
      [("job1", JobStatus.queued)] := by
  have h1 := (C10_submission_validation [] "job1"
    ⟨[⟨some "NYC", none, none⟩], .hd1080p, none⟩).1 (by simp)
  have h2 := (C10_submission_validation [] "job1"
    ⟨[⟨some "NYC", none, none⟩, ⟨some "London", none, none⟩], .hd1080p, none⟩).2
    (by simp)
  refine ⟨⟨by simp, by simp⟩, h1.1, h1.2.2.1, h2.1, ?_⟩
  rw [h2.2.1]
  rfl

end EarthTour
